import Mathlib

/-!
# Verification of the LSST flat-field builder (`imsim/flat.py`)

This file gives a shallow embedding of the tiled, iterative flat-field
synthesis engine `LSST_FlatBuilder` (methods `setup`, `buildImage`,
`addNoise`, `getNObj`) and proves the specification claims about it.

Modelling conventions:
* pixel coordinates are integers, pixel values are rationals (floats are
  modelled exactly as `ℚ`);
* `galsim.BoundsI` becomes `ImSim.Bounds`, `galsim.Image` becomes
  `ImSim.Image` (a bounding box plus a total pixel function and a WCS tag);
* the external stochastic collaborators (sensor model, noise realization,
  Poisson/uniform deviates, wavelength sampler) are parameters of the model
  (`ImSim.Env`), threading an explicit RNG counter; the model also logs the
  mean of every Poisson draw it requests, so that theorems can speak about
  the parameters passed to the Poisson sampler.
-/

namespace ImSim

/-- `galsim.BoundsI`: an inclusive integer bounding rectangle. -/
structure Bounds where
  xmin : Int
  xmax : Int
  ymin : Int
  ymax : Int
deriving DecidableEq, Repr

/-- `Bounds.isDefined()`: a bounds is defined when it is non-empty. -/
def Bounds.isDefined (b : Bounds) : Bool :=
  b.xmin ≤ b.xmax && b.ymin ≤ b.ymax

/-- `Bounds.area()`: number of pixels inside the bounds (0 when undefined). -/
def Bounds.area (b : Bounds) : Int :=
  if b.isDefined then (b.xmax - b.xmin + 1) * (b.ymax - b.ymin + 1) else 0

/-- `Bounds.withBorder(s)`: expand the bounds by `s` on every side. -/
def Bounds.withBorder (b : Bounds) (s : Int) : Bounds :=
  ⟨b.xmin - s, b.xmax + s, b.ymin - s, b.ymax + s⟩

/-- Membership of the pixel `(x, y)` in the bounds. -/
def Bounds.containsB (b : Bounds) (x y : Int) : Bool :=
  b.xmin ≤ x && x ≤ b.xmax && b.ymin ≤ y && y ≤ b.ymax

/-- The world-coordinate system, abstracted to the one capability the flat
builder consumes from it: the relative pixel area at each pixel
(`wcs.makeSkyImage` with `sky_level=1` fills an image with these values). -/
structure WCS where
  pixelArea : Int → Int → ℚ

/-- `galsim.Image`: a bounding box, a WCS tag and a total pixel function. -/
structure Image where
  bounds : Bounds
  wcs : WCS
  pix : Int → Int → ℚ

/-- `image[bounds]` (a view / `.copy()`): same pixels, restricted bounds. -/
def Image.restrict (img : Image) (b : Bounds) : Image :=
  { bounds := b, wcs := img.wcs, pix := img.pix }

/-- Scalar multiplication of an image, `image *= k`. -/
def Image.scale (k : ℚ) (img : Image) : Image :=
  { img with pix := fun x y => k * img.pix x y }

/-- Pointwise image addition over the left image's bounds, `a += b`. -/
def Image.add (a b : Image) : Image :=
  { a with pix := fun x y => a.pix x y + b.pix x y }

/-- Sum of the pixel values inside the image's own bounds. -/
def Image.pixSum (img : Image) : ℚ :=
  ∑ x ∈ Finset.Icc img.bounds.xmin img.bounds.xmax,
    ∑ y ∈ Finset.Icc img.bounds.ymin img.bounds.ymax, img.pix x y

/-- Number of pixels of the image (as a rational, for forming means). -/
def Image.npix (img : Image) : ℚ :=
  ((img.bounds.xmax - img.bounds.xmin + 1) * (img.bounds.ymax - img.bounds.ymin + 1) : Int)

/-- `np.mean(image.array)`: mean pixel value over the image's bounds. -/
def Image.mean (img : Image) : ℚ := img.pixSum / img.npix

/-- `image[sec_bounds] += section[sec_bounds]`: additive merge of a
section accumulator into the output image, touching only the pixels inside
`sb`. -/
def Image.addSection (img : Image) (sb : Bounds) (sec : Image) : Image :=
  { img with pix := fun x y =>
      if sb.containsB x y then img.pix x y + sec.pix x y else img.pix x y }

/-! ## Configuration and the Sizing Resolver (`LSST_FlatBuilder.setup`) -/

/-- The `sensor` sub-configuration: only the `nrecalc` key matters here. -/
structure SensorCfg where
  nrecalc : Option ℚ
deriving DecidableEq, Repr

/-- The `image` configuration field consumed by `setup`: required keys
`counts_per_pixel`, `xsize`, `ysize`; optional keys with `none` meaning
"absent"; `hasSed` records whether an `sed` entry is present. -/
structure FlatConfig where
  counts_per_pixel : ℚ
  xsize : Nat
  ysize : Nat
  max_counts_per_iter : Option ℚ
  buffer_size : Option Nat
  nx : Option Nat
  ny : Option Nat
  hasSed : Bool
  sensor : Option SensorCfg

/-- The parameters resolved by `setup` and stored on the builder. -/
structure FlatParams where
  counts_per_pixel : ℚ
  xsize : Nat
  ysize : Nat
  buffer_size : Nat
  max_counts_per_iter : ℚ
  hasSed : Bool
  nx : Nat
  ny : Nat

/-- `LSST_FlatBuilder.setup` (flat.py lines 51-70): resolve the parameters,
applying the defaults (`buffer_size = 2`, `max_counts_per_iter = 1000`,
grid `16×16` with an sed and `8×2` without), and, when a sensor
configuration is present without its own `nrecalc`, forward
`max_counts_per_iter * xsize * ysize` as the sensor's `nrecalc`.
Returns the resolved parameters and the (possibly updated) sensor config. -/
def setup (cfg : FlatConfig) : FlatParams × Option SensorCfg :=
  let p : FlatParams :=
    { counts_per_pixel := cfg.counts_per_pixel
      xsize := cfg.xsize
      ysize := cfg.ysize
      buffer_size := cfg.buffer_size.getD 2
      max_counts_per_iter := cfg.max_counts_per_iter.getD 1000
      hasSed := cfg.hasSed
      nx := cfg.nx.getD (if cfg.hasSed then 16 else 8)
      ny := cfg.ny.getD (if cfg.hasSed then 16 else 2) }
  let sensor : Option SensorCfg :=
    match cfg.sensor with
    | none => none
    | some s =>
        if s.nrecalc = none then
          some { nrecalc := some (p.max_counts_per_iter * cfg.xsize * cfg.ysize) }
        else some s
  (p, sensor)

/-! ## The Output Assembler (`buildImage`, `getNObj`) -/

/-- `LSST_FlatBuilder.buildImage` (flat.py line 89-91):
`galsim.ImageF(xsize, ysize, wcs=...)` is a zero image with bounds
`[1, xsize] × [1, ysize]`; returns the image and a current variance of 0. -/
def buildImage (p : FlatParams) (wcs : WCS) : Image × ℚ :=
  ({ bounds := ⟨1, (p.xsize : Int), 1, (p.ysize : Int)⟩
     wcs := wcs
     pix := fun _ _ => 0 }, 0)

/-- `LSST_FlatBuilder.getNObj` (flat.py line 222): always 0. -/
def getNObj (_cfg : FlatConfig) (_image_num : Nat) : Nat := 0

/-! ## Iteration count (flat.py lines 113-114) -/

/-- `niter = int(np.ceil(counts_per_pixel / max_counts_per_iter))`. -/
def niterI (counts_per_pixel max_counts_per_iter : ℚ) : Int :=
  ⌈counts_per_pixel / max_counts_per_iter⌉

/-- The iteration count as a natural number, used to drive the loops. -/
def niterN (counts_per_pixel max_counts_per_iter : ℚ) : Nat :=
  (niterI counts_per_pixel max_counts_per_iter).toNat

/-! ## Section grid (flat.py lines 138-150) -/

/-- Column lower bound of grid column `i`: `xmin = i*dx + 1`. -/
def colLo (dx i : Nat) : Nat := i * dx + 1

/-- Column upper bound of grid column `i`: `xmax = (i+1)*dx`, forced to
`ncol` on the last column so the whole CCD is covered. -/
def colHi (ncol nx dx i : Nat) : Nat := if i = nx - 1 then ncol else (i + 1) * dx

/-- The un-expanded (interior) bounds of grid section `(i, j)` of an
`ncol × nrow` image cut into an `nx × ny` grid, with `dx = ncol // nx`,
`dy = nrow // ny` (flat.py lines 138-150). -/
def secBounds (ncol nrow nx ny i j : Nat) : Bounds :=
  let dx := ncol / nx
  let dy := nrow / ny
  ⟨(colLo dx i : Nat), (colHi ncol nx dx i : Nat),
   (colLo dy j : Nat), (colHi nrow ny dy j : Nat)⟩

/-! ## The external collaborators of `addNoise` -/

/-- A photon of `galsim.PhotonArray`: position, flux and wavelength. -/
structure Photon where
  x : ℚ
  y : ℚ
  flux : ℚ
  wavelength : ℚ

/-- The external stochastic collaborators consumed by `addNoise`, with an
explicit RNG counter (`Nat`) threaded through every draw:
* `calcAreas` is `sensor.calculate_pixel_areas`; `none` models a return
  value that is not a `galsim.Image` (e.g. the trivial sensor's scalar 1);
* `applyNoise` is `galsim.config.AddNoise`, realizing an expectation image;
* `poisson μ` is `galsim.PoissonDeviate(rng, mean=μ)` followed by `int()`;
* `uniform` is one draw of `galsim.UniformDeviate(rng)`;
* `sampleWavelength` is one draw of the `galsim.WavelengthSampler`;
* `accumulate` is `sensor.accumulate` (the sensor shares the same rng). -/
structure Env where
  calcAreas : Image → Option Image
  applyNoise : Image → Nat → Image × Nat
  poisson : ℚ → Nat → Nat × Nat
  uniform : Nat → ℚ × Nat
  sampleWavelength : Nat → ℚ × Nat
  accumulate : List Photon → Image → Nat → Image × Nat

/-- Draw `n` values with the sampler `f`, threading the RNG
(`ud.generate(arr)` fills an array with successive draws). -/
def genList (n : Nat) (f : Nat → ℚ × Nat) (rng : Nat) : List ℚ × Nat :=
  match n with
  | 0 => ([], rng)
  | m + 1 =>
      let (u, r1) := f rng
      let (us, r2) := genList m f r1
      (u :: us, r2)

/-- flat.py line 194: `photons.x = photons.x * (xmax - xmin + 1) + xmin - 0.5`. -/
def photonX (u : ℚ) (b : Bounds) : ℚ :=
  u * ((b.xmax : ℚ) - (b.xmin : ℚ) + 1) + (b.xmin : ℚ) - 1/2

/-- flat.py line 195: the same affine map for the y coordinate. -/
def photonY (u : ℚ) (b : Bounds) : ℚ :=
  u * ((b.ymax : ℚ) - (b.ymin : ℚ) + 1) + (b.ymin : ℚ) - 1/2

/-- flat.py lines 189-198: build `n` photons: fill the x array with uniform
draws, then the y array, map both into the continuous extent of `b`, set
every flux to 1, and assign wavelengths from the sed/bandpass sampler. -/
def genPhotons (env : Env) (n : Nat) (b : Bounds) (rng : Nat) :
    List Photon × Nat :=
  let (xs, r1) := genList n env.uniform rng
  let (ys, r2) := genList n env.uniform r1
  let (ws, r3) := genList n env.sampleWavelength r2
  (List.zipWith (fun (xy : ℚ × ℚ) w =>
      { x := photonX xy.1 b, y := photonY xy.2 b, flux := 1, wavelength := w })
    (xs.zip ys) ws, r3)

/-! ## The iteration bodies of `addNoise` -/

/-- A log entry recording one Poisson draw requested from the deviate:
the mean parameter passed, and the grid indices of the current section. -/
structure PoissonCall where
  mean : ℚ
  i : Nat
  j : Nat
deriving DecidableEq

/-- The loop state: the image being built, the RNG counter, and the log of
Poisson calls (instrumentation; the code itself keeps no such log). -/
abbrev LoopState := Image × Nat × List PoissonCall

/-- flat.py lines 160-168: compute the expectation image of one mean-level
iteration, before the noise realization: `temp = base_image[bounds].copy()`,
then `temp *= area / np.mean(area.array)` only when
`sensor.calculate_pixel_areas(section)` returned a `galsim.Image`. -/
def meanIterTemp (env : Env) (base_image : Image) (bounds : Bounds)
    (sec : Image) : Image :=
  let area := env.calcAreas sec
  let temp := base_image.restrict bounds
  match area with
  | some a => { temp with pix := fun x y => temp.pix x y * (a.pix x y / a.mean) }
  | none => temp

/-- flat.py lines 159-176, one iteration of mean-level mode: form the
expectation image, realize it with the noise collaborator, and add it into
the section accumulator. -/
def meanIter (env : Env) (base_image : Image) (bounds : Bounds)
    (st : LoopState) : LoopState :=
  let (sec, rng, log) := st
  let temp0 := meanIterTemp env base_image bounds sec
  let (temp, rng1) := env.applyNoise temp0 rng
  (sec.add temp, rng1, log)

/-- flat.py lines 185-202, one iteration of photon-shooting mode: the mean
photon count is `counts_per_iter * bounds.area()` (exact, not rounded), a
Poisson realization picks the actual count, photons are generated uniformly
over the expanded bounds, and the sensor accumulates them on the section. -/
def photonIter (env : Env) (counts_per_iter : ℚ) (bounds : Bounds) (i j : Nat)
    (st : LoopState) : LoopState :=
  let (sec, rng, log) := st
  let nphotons : ℚ := counts_per_iter * (bounds.area : ℚ)
  let (n, rng1) := env.poisson nphotons rng
  let (photons, rng2) := genPhotons env n bounds rng1
  let (sec1, rng3) := env.accumulate photons sec rng2
  (sec1, rng3, log ++ [{ mean := nphotons, i := i, j := j }])

/-- flat.py lines 150-156 and 204-205 around the iteration loop: compute
the section's expanded bounds, start a zeroed accumulator over them, run
`niter` iterations of the mode-selected body. -/
def runSectionIters (env : Env) (p : FlatParams) (counts_per_iter : ℚ)
    (base_image : Image) (nit ncol nrow i j : Nat) (rng : Nat)
    (log : List PoissonCall) : LoopState :=
  let sec_bounds := secBounds ncol nrow p.nx p.ny i j
  let bounds := sec_bounds.withBorder (p.buffer_size : Int)
  let sec0 : Image :=
    { bounds := bounds, wcs := base_image.wcs, pix := fun _ _ => 0 }
  let body := if p.hasSed then photonIter env counts_per_iter bounds i j
              else meanIter env base_image bounds
  body^[nit] (sec0, rng, log)

/-- One grid section of the outer loops (flat.py lines 140-206): run the
iterations and additively merge only the un-expanded interior
`section[sec_bounds]` into the output image. -/
def sectionStep (env : Env) (p : FlatParams) (counts_per_iter : ℚ)
    (base_image : Image) (nit ncol nrow i j : Nat) (st : LoopState) :
    LoopState :=
  let (image, rng, log) := st
  let sec_bounds := secBounds ncol nrow p.nx p.ny i j
  let (sec, rng1, log1) :=
    runSectionIters env p counts_per_iter base_image nit ncol nrow i j rng log
  (image.addSection sec_bounds sec, rng1, log1)

/-- `LSST_FlatBuilder.addNoise` (flat.py lines 93-206): derive `niter` and
`counts_per_iter`, build the noise-free base image (sky-filled and rescaled
to a mean of `counts_per_iter` in mean-level mode), fail if an sed was
supplied without a bandpass in the base config, then loop over the section
grid (outer `i`, inner `j`) consuming one shared RNG stream. -/
def addNoise (env : Env) (p : FlatParams) (bandpass : Option Unit)
    (rng0 : Nat) (image : Image) : Except String LoopState :=
  let nit := niterN p.counts_per_pixel p.max_counts_per_iter
  let counts_per_iter := p.counts_per_pixel / (nit : ℚ)
  let nrow := (image.bounds.ymax - image.bounds.ymin + 1).toNat
  let ncol := (image.bounds.xmax - image.bounds.xmin + 1).toNat
  let bbounds := image.bounds.withBorder (p.buffer_size : Int)
  let base_image : Image :=
    if p.hasSed then
      { bounds := bbounds, wcs := image.wcs, pix := fun _ _ => 0 }
    else
      let sky : Image :=
        { bounds := bbounds, wcs := image.wcs
          pix := fun x y => image.wcs.pixelArea x y }
      Image.scale (counts_per_iter / sky.mean) sky
  if p.hasSed ∧ bandpass = none then
    Except.error "Using sed with flat builder requires a valid bandpass"
  else
    Except.ok <|
      (List.range p.nx).foldl (fun st i =>
        (List.range p.ny).foldl (fun st1 j =>
          sectionStep env p counts_per_iter base_image nit ncol nrow i j st1)
        st) (image, rng0, [])

/-- `setup` + `buildImage` + `addNoise` composed as the galsim driver calls
them: the image handed to `addNoise` is the zero image from `buildImage`. -/
def buildFlat (cfg : FlatConfig) (wcs : WCS) (env : Env)
    (bandpass : Option Unit) (rng0 : Nat) : Except String LoopState :=
  let p := (setup cfg).1
  let (img, _var) := buildImage p wcs
  addNoise env p bandpass rng0 img

/-- A trivial concrete environment for instantiating the theorems:
the scalar sensor (`calcAreas` never an image), identity noise, zero-photon
Poisson draws, constant-zero uniform and wavelength draws. -/
def trivEnv : Env :=
  { calcAreas := fun _ => none
    applyNoise := fun img r => (img, r + 1)
    poisson := fun _ r => (0, r + 1)
    uniform := fun r => (0, r + 1)
    sampleWavelength := fun r => (0, r + 1)
    accumulate := fun _ img r => (img, r + 1) }

/-- A trivial concrete WCS with unit pixel areas. -/
def trivWCS : WCS := { pixelArea := fun _ _ => 1 }

/-- A concrete 1×1 image of constant value 2 (for instantiating theorems). -/
def imgUnit : Image := { bounds := ⟨1, 1, 1, 1⟩, wcs := trivWCS, pix := fun _ _ => 2 }

/-- A concrete configuration without sed, all optional keys absent, with a
sensor configuration carrying no `nrecalc` of its own. -/
def cfgNoSed : FlatConfig :=
  { counts_per_pixel := 100, xsize := 4, ysize := 3
    max_counts_per_iter := none, buffer_size := none, nx := none, ny := none
    hasSed := false, sensor := some { nrecalc := none } }

/-- A concrete configuration with an sed present. -/
def cfgSed : FlatConfig :=
  { counts_per_pixel := 100, xsize := 2, ysize := 2
    max_counts_per_iter := none, buffer_size := none, nx := none, ny := none
    hasSed := true, sensor := none }

/-- Concrete resolved parameters in photon-shooting mode, small enough to
evaluate the whole synthesis loop. -/
def pPhoton : FlatParams :=
  { counts_per_pixel := 1, xsize := 1, ysize := 1, buffer_size := 0
    max_counts_per_iter := 1, hasSed := true, nx := 1, ny := 1 }

/-- A concrete 1×1 zero image (the output buffer of a 1×1 flat). -/
def imgOne : Image := { bounds := ⟨1, 1, 1, 1⟩, wcs := trivWCS, pix := fun _ _ => 0 }

/-- A concrete non-degenerate bounds for photon-position instantiation. -/
def bW : Bounds := ⟨1, 2, 1, 3⟩

/-- What C5 asserts of every Poisson draw the model requests: the call was
made for a section `(i, j)` of the grid, and its mean parameter is exactly
`counts_per_iter` times the area of that section's buffer-expanded bounds. -/
def goodCall (p : FlatParams) (counts_per_iter : ℚ) (ncol nrow : Nat)
    (e : PoissonCall) : Prop :=
  e.i < p.nx ∧ e.j < p.ny ∧
  e.mean = counts_per_iter *
    (((secBounds ncol nrow p.nx p.ny e.i e.j).withBorder
        (p.buffer_size : Int)).area : ℚ)

/-! # Theorems -/

/-! ## C2: iteration count -/

/-- C2: for every positive `counts_per_pixel` and `max_counts_per_iter`,
the derived iteration count is `⌈counts_per_pixel / max_counts_per_iter⌉`,
is at least 1, and satisfies `niter * (counts_per_pixel / niter) =
counts_per_pixel`; in particular `counts_per_pixel = 20000`,
`max_counts_per_iter = 1000` gives `niter = 20`. -/
theorem niter_spec :
    (∀ c m : ℚ, 0 < c → 0 < m →
      niterI c m = ⌈c / m⌉ ∧ 1 ≤ niterI c m ∧
      (niterI c m : ℚ) * (c / (niterI c m : ℚ)) = c) ∧
    niterI 20000 1000 = 20 := by
  constructor
  · intro c m hc hm
    have h1 : 1 ≤ niterI c m := Int.ceil_pos.mpr (div_pos hc hm)
    refine ⟨rfl, h1, ?_⟩
    have hne : ((niterI c m : Int) : ℚ) ≠ 0 := by
      exact_mod_cast (by omega : (niterI c m : Int) ≠ 0)
    rw [mul_comm, div_mul_cancel₀ c hne]
  · show (⌈(20000 : ℚ) / 1000⌉ : Int) = 20
    norm_num

/-- Witness for C2 at `counts_per_pixel = 3`, `max_counts_per_iter = 2`. -/
theorem niter_spec_witness :
    (0:ℚ) < 3 ∧ (0:ℚ) < 2 ∧
    (niterI 3 2 = ⌈(3:ℚ) / 2⌉ ∧ 1 ≤ niterI 3 2 ∧
      (niterI 3 2 : ℚ) * (3 / (niterI 3 2 : ℚ)) = 3) :=
  ⟨by norm_num, by norm_num, niter_spec.1 3 2 (by norm_num) (by norm_num)⟩

/-! ## C7: normalization of the base image -/

/-- C7: rescaling any image of nonzero mean by
`counts_per_iter / mean` (flat.py lines 127-129) yields an image whose mean
is exactly `counts_per_iter`: `mean (c / mean a * a) = c`. -/
theorem mean_rescale (a : Image) (c : ℚ) (h : a.mean ≠ 0) :
    (Image.scale (c / a.mean) a).mean = c := by
  have hs : (Image.scale (c / a.mean) a).pixSum = (c / a.mean) * a.pixSum := by
    simp [Image.pixSum, Image.scale, Finset.mul_sum]
  have hmean : (Image.scale (c / a.mean) a).mean = (c / a.mean) * a.mean := by
    rw [Image.mean, hs]
    show c / a.mean * a.pixSum / a.npix = _
    rw [mul_div_assoc, Image.mean]
  rw [hmean, div_mul_cancel₀ c h]

/-- Witness for C7: the constant-2 image has mean 2 ≠ 0, and rescaling it
towards mean 5 indeed produces mean 5. -/
theorem mean_rescale_witness :
    imgUnit.mean ≠ 0 ∧ (Image.scale (5 / imgUnit.mean) imgUnit).mean = 5 := by
  have h : imgUnit.mean ≠ 0 := by
    simp [imgUnit, Image.mean, Image.pixSum, Image.npix]
  exact ⟨h, mean_rescale imgUnit 5 h⟩

/-! ## C8: the Sizing Resolver's defaults and forwarding -/

/-- C8: `setup` applies the defaults `max_counts_per_iter = 1000`,
`buffer_size = 2`, grid `8×2` without sed and `16×16` with sed; supplied
values override the defaults; a sensor configuration with no `nrecalc` of
its own receives `max_counts_per_iter * xsize * ysize`. -/
theorem setup_spec (cfg : FlatConfig) :
    (cfg.max_counts_per_iter = none → (setup cfg).1.max_counts_per_iter = 1000) ∧
    (∀ v, cfg.max_counts_per_iter = some v → (setup cfg).1.max_counts_per_iter = v) ∧
    (cfg.buffer_size = none → (setup cfg).1.buffer_size = 2) ∧
    (∀ v, cfg.buffer_size = some v → (setup cfg).1.buffer_size = v) ∧
    (cfg.nx = none → cfg.hasSed = false → (setup cfg).1.nx = 8) ∧
    (cfg.ny = none → cfg.hasSed = false → (setup cfg).1.ny = 2) ∧
    (cfg.nx = none → cfg.hasSed = true → (setup cfg).1.nx = 16) ∧
    (cfg.ny = none → cfg.hasSed = true → (setup cfg).1.ny = 16) ∧
    (∀ v, cfg.nx = some v → (setup cfg).1.nx = v) ∧
    (∀ v, cfg.ny = some v → (setup cfg).1.ny = v) ∧
    (∀ s, cfg.sensor = some s → s.nrecalc = none →
      (setup cfg).2 =
        some ⟨some ((setup cfg).1.max_counts_per_iter * (cfg.xsize : ℚ) * (cfg.ysize : ℚ))⟩) := by
  refine ⟨?_, ?_, ?_, ?_, ?_, ?_, ?_, ?_, ?_, ?_, ?_⟩ <;>
    · intros
      simp_all [setup]

/-- Witness for C8 on `cfgNoSed`: every optional key absent, no sed, a
sensor with no `nrecalc`. -/
theorem setup_spec_witness :
    (setup cfgNoSed).1.max_counts_per_iter = 1000 ∧
    (setup cfgNoSed).1.buffer_size = 2 ∧
    (setup cfgNoSed).1.nx = 8 ∧ (setup cfgNoSed).1.ny = 2 ∧
    (setup cfgNoSed).2 = some ⟨some (12000 : ℚ)⟩ := by
  obtain ⟨h1, -, h3, -, h5, h6, -, -, -, -, h11⟩ := setup_spec cfgNoSed
  refine ⟨h1 rfl, h3 rfl, h5 rfl rfl, h6 rfl rfl, ?_⟩
  have h := h11 ⟨none⟩ rfl rfl
  rw [h, h1 rfl]
  norm_num [cfgNoSed]

/-! ## C9: the Output Assembler -/

/-- C9: `buildImage` returns an image with bounds `[1, xsize] × [1, ysize]`
(exactly the resolved dimensions), all pixels zero, tagged with the
supplied WCS, together with a current noise variance of exactly 0;
`getNObj` returns 0 for every flat image. -/
theorem buildImage_spec (cfg : FlatConfig) (wcs : WCS) (n : Nat) :
    (buildImage (setup cfg).1 wcs).1.bounds.xmin = 1 ∧
    (buildImage (setup cfg).1 wcs).1.bounds.xmax = (cfg.xsize : Int) ∧
    (buildImage (setup cfg).1 wcs).1.bounds.ymin = 1 ∧
    (buildImage (setup cfg).1 wcs).1.bounds.ymax = (cfg.ysize : Int) ∧
    (∀ x y : Int, (buildImage (setup cfg).1 wcs).1.pix x y = 0) ∧
    (buildImage (setup cfg).1 wcs).1.wcs = wcs ∧
    (buildImage (setup cfg).1 wcs).2 = 0 ∧
    getNObj cfg n = 0 := by
  simp [buildImage, setup, getNObj]

/-! ## C3: merging a section only writes its un-expanded interior -/

/-- C3: merging a completed section into the output image modifies exactly
the pixels inside the un-expanded interior bounds `sec_bounds`, by additive
merge (new = old + accumulator value); every pixel outside `sec_bounds` —
in particular the whole expanded buffer margin of the accumulator — is
unchanged, and the output image's bounds are unchanged. -/
theorem merge_frame (env : Env) (p : FlatParams) (cpi : ℚ) (base : Image)
    (nit ncol nrow i j : Nat) (img : Image) (rng : Nat)
    (log : List PoissonCall) (x y : Int) :
    ((sectionStep env p cpi base nit ncol nrow i j (img, rng, log)).1.pix x y =
      if (secBounds ncol nrow p.nx p.ny i j).containsB x y then
        img.pix x y +
          (runSectionIters env p cpi base nit ncol nrow i j rng log).1.pix x y
      else img.pix x y) ∧
    (sectionStep env p cpi base nit ncol nrow i j (img, rng, log)).1.bounds =
      img.bounds := by
  exact ⟨rfl, rfl⟩

/-! ## C4: sed without bandpass fails before any work -/

/-- C4: when an sed is supplied but the base configuration has no bandpass,
`addNoise` raises `RuntimeError` before any section or iteration work (the
result does not depend on the collaborators or on the random stream), and
at that point the output image built by `buildImage` still has all pixels
zero. -/
theorem sed_requires_bandpass (cfg : FlatConfig) (wcs : WCS)
    (env env2 : Env) (rng rng2 : Nat) (h : cfg.hasSed = true) :
    buildFlat cfg wcs env none rng =
      Except.error "Using sed with flat builder requires a valid bandpass" ∧
    buildFlat cfg wcs env none rng = buildFlat cfg wcs env2 none rng2 ∧
    (∀ x y : Int, (buildImage (setup cfg).1 wcs).1.pix x y = 0) := by
  refine ⟨?_, ?_, ?_⟩
  · simp [buildFlat, addNoise, setup, buildImage, h]
  · simp [buildFlat, addNoise, setup, buildImage, h]
  · intro x y; rfl

/-- Witness for C4 on the concrete sed-bearing configuration `cfgSed`. -/
theorem sed_requires_bandpass_witness :
    buildFlat cfgSed trivWCS trivEnv none 0 =
      Except.error "Using sed with flat builder requires a valid bandpass" ∧
    buildFlat cfgSed trivWCS trivEnv none 0 =
      buildFlat cfgSed trivWCS trivEnv none 7 ∧
    (∀ x y : Int, (buildImage (setup cfgSed).1 trivWCS).1.pix x y = 0) :=
  sed_requires_bandpass cfgSed trivWCS trivEnv trivEnv 0 7 rfl

/-! ## C6: determinism of the synthesis -/

/-- C6: the synthesis is deterministic: two runs of `addNoise` with the
same collaborators (which contain the seeded random stream semantics), the
same resolved parameters, the same bandpass context, the same initial RNG
position and the same starting image — traversed in the fixed order baked
into `addNoise` (outer grid columns, inner grid rows, iterations within a
section, one shared stream) — produce identical results. -/
theorem addNoise_deterministic (env1 env2 : Env) (p1 p2 : FlatParams)
    (bp1 bp2 : Option Unit) (rng1 rng2 : Nat) (img1 img2 : Image)
    (henv : env1 = env2) (hp : p1 = p2) (hbp : bp1 = bp2)
    (hrng : rng1 = rng2) (himg : img1 = img2) :
    addNoise env1 p1 bp1 rng1 img1 = addNoise env2 p2 bp2 rng2 img2 := by
  subst henv hp hbp hrng himg
  rfl

/-- Witness for C6 at a concrete photon-mode run of a 1×1 flat. -/
theorem addNoise_deterministic_witness :
    addNoise trivEnv pPhoton (some ()) 0 imgOne =
      addNoise trivEnv pPhoton (some ()) 0 imgOne :=
  addNoise_deterministic trivEnv trivEnv pPhoton pPhoton (some ()) (some ())
    0 0 imgOne imgOne rfl rfl rfl rfl rfl

/-! ## C10: scalar pixel areas skip the re-weighting -/

/-- C10: when `sensor.calculate_pixel_areas` does not return an image (the
trivial default sensor returns the scalar 1), the area re-weighting
multiplication is skipped, so the expectation image of the iteration is
exactly the unweighted base-image slice over the expanded bounds; the
noise realization is then applied to exactly that expectation image. -/
theorem scalar_area_skip (env : Env) (base : Image) (b : Bounds)
    (s : Image) (rng : Nat) (log : List PoissonCall)
    (h : env.calcAreas s = none) :
    (meanIterTemp env base b s).bounds = b ∧
    (∀ x y, (meanIterTemp env base b s).pix x y = base.pix x y) ∧
    meanIter env base b (s, rng, log) =
      (s.add (env.applyNoise (meanIterTemp env base b s) rng).1,
       (env.applyNoise (meanIterTemp env base b s) rng).2, log) := by
  refine ⟨?_, ?_, rfl⟩
  · simp [meanIterTemp, h, Image.restrict]
  · intro x y; simp [meanIterTemp, h, Image.restrict]

/-- Witness for C10: the trivial sensor environment returns a non-image
pixel area on the zero accumulator. -/
theorem scalar_area_skip_witness :
    trivEnv.calcAreas imgOne = none ∧
    (meanIterTemp trivEnv imgUnit bW imgOne).bounds = bW ∧
    (∀ x y, (meanIterTemp trivEnv imgUnit bW imgOne).pix x y =
      imgUnit.pix x y) :=
  ⟨rfl, (scalar_area_skip trivEnv imgUnit bW imgOne 0 [] rfl).1,
    (scalar_area_skip trivEnv imgUnit bW imgOne 0 [] rfl).2.1⟩

/-! ## C1: the section grid exactly tiles the image -/

/-- Sharp upper bound of truncated division: `a < (a / b + 1) * b`. -/
theorem lt_div_succ_mul (a b : Nat) (hb : 0 < b) : a < (a / b + 1) * b := by
  have h1 : b * (a / b) + a % b = a := Nat.div_add_mod a b
  have h2 : a % b < b := Nat.mod_lt a hb
  calc a = b * (a / b) + a % b := h1.symm
    _ < b * (a / b) + b := Nat.add_lt_add_left h2 _
    _ = (a / b + 1) * b := by ring

/-- Two distinct grid columns of the section grid have disjoint pixel
column ranges. -/
theorem col_disjoint (ncol nx dx i i' x : Nat) (hii : i < i') (hi' : i' < nx)
    (ha : colLo dx i ≤ x ∧ x ≤ colHi ncol nx dx i)
    (hb : colLo dx i' ≤ x ∧ x ≤ colHi ncol nx dx i') : False := by
  have hiA : i ≠ nx - 1 := by omega
  have hx1 : x ≤ (i + 1) * dx := by simpa [colHi, hiA] using ha.2
  have hx2 : i' * dx + 1 ≤ x := by simpa [colLo] using hb.1
  have hmono : (i + 1) * dx ≤ i' * dx := Nat.mul_le_mul (by omega) (le_refl dx)
  linarith

/-- Every pixel column index in `[1, ncol]` lies in some grid column's
range. -/
theorem oneD_exists (ncol nx : Nat) (hn : 0 < nx) (x : Nat)
    (h1 : 1 ≤ x) (h2 : x ≤ ncol) :
    ∃ i : Nat, i < nx ∧ colLo (ncol / nx) i ≤ x ∧
      x ≤ colHi ncol nx (ncol / nx) i := by
  by_cases hdx : ncol / nx = 0
  · refine ⟨nx - 1, by omega, ?_, ?_⟩
    · simp only [colLo, hdx, Nat.mul_zero, Nat.zero_add]
      exact h1
    · simpa [colHi] using h2
  · have hdx' : 0 < ncol / nx := Nat.pos_of_ne_zero hdx
    by_cases hcase : (x - 1) / (ncol / nx) < nx - 1
    · refine ⟨(x - 1) / (ncol / nx), by omega, ?_, ?_⟩
      · have hle : (x - 1) / (ncol / nx) * (ncol / nx) ≤ x - 1 :=
          Nat.div_mul_le_self (x - 1) (ncol / nx)
        simp only [colLo]
        generalize hP : (x - 1) / (ncol / nx) * (ncol / nx) = P at hle
        omega
      · have hlt : x - 1 < ((x - 1) / (ncol / nx) + 1) * (ncol / nx) :=
          lt_div_succ_mul (x - 1) (ncol / nx) hdx'
        have hne : (x - 1) / (ncol / nx) ≠ nx - 1 := by omega
        simp only [colHi, if_neg hne]
        generalize hP : ((x - 1) / (ncol / nx) + 1) * (ncol / nx) = P at hlt
        omega
    · refine ⟨nx - 1, by omega, ?_, ?_⟩
      · have hmono : (nx - 1) * (ncol / nx) ≤ (x - 1) / (ncol / nx) * (ncol / nx) :=
          Nat.mul_le_mul (by omega) (le_refl (ncol / nx))
        have hle : (x - 1) / (ncol / nx) * (ncol / nx) ≤ x - 1 :=
          Nat.div_mul_le_self (x - 1) (ncol / nx)
        simp only [colLo]
        generalize hP : (nx - 1) * (ncol / nx) = P at hmono
        generalize hQ : (x - 1) / (ncol / nx) * (ncol / nx) = Q at hmono hle
        omega
      · simpa [colHi] using h2

/-- Every pixel column index in `[1, ncol]` lies in exactly one grid
column's range. -/
theorem oneD_cover (ncol nx : Nat) (hn : 0 < nx) (x : Nat)
    (h1 : 1 ≤ x) (h2 : x ≤ ncol) :
    ∃! i : Nat, i < nx ∧ colLo (ncol / nx) i ≤ x ∧
      x ≤ colHi ncol nx (ncol / nx) i := by
  obtain ⟨i0, hlt, hlo, hhi⟩ := oneD_exists ncol nx hn x h1 h2
  refine ⟨i0, ⟨hlt, hlo, hhi⟩, ?_⟩
  intro i hi
  rcases Nat.lt_trichotomy i i0 with h | h | h
  · exact (col_disjoint ncol nx (ncol / nx) i i0 x h hlt
      ⟨hi.2.1, hi.2.2⟩ ⟨hlo, hhi⟩).elim
  · exact h
  · exact (col_disjoint ncol nx (ncol / nx) i0 i x h hi.1
      ⟨hlo, hhi⟩ ⟨hi.2.1, hi.2.2⟩).elim

/-- Bridge between `containsB` on a section's bounds and the 1-D column
and row range conditions. -/
theorem containsB_secBounds (ncol nrow nx ny i j : Nat) (x y : Int) :
    (secBounds ncol nrow nx ny i j).containsB x y = true ↔
    ((colLo (ncol / nx) i : Int) ≤ x ∧ x ≤ (colHi ncol nx (ncol / nx) i : Int) ∧
     (colLo (nrow / ny) j : Int) ≤ y ∧ y ≤ (colHi nrow ny (nrow / ny) j : Int)) := by
  simp [secBounds, Bounds.containsB, and_assoc]

/-- C1: for positive image dimensions and grid dimensions, the interior
(un-expanded) section regions of the grid built with `dx = ncol // nx`,
`dy = nrow // ny` partition the full rectangle `[1, ncol] × [1, nrow]`:
every pixel lies in exactly one section's interior, including when `nx`
does not divide `ncol` or `ny` does not divide `nrow`. -/
theorem grid_partition (ncol nrow nx ny : Nat)
    (hc : 0 < ncol) (hr : 0 < nrow) (hx : 0 < nx) (hy : 0 < ny)
    (x y : Int) (hx1 : 1 ≤ x) (hx2 : x ≤ (ncol : Int))
    (hy1 : 1 ≤ y) (hy2 : y ≤ (nrow : Int)) :
    ∃! ij : Nat × Nat, ij.1 < nx ∧ ij.2 < ny ∧
      (secBounds ncol nrow nx ny ij.1 ij.2).containsB x y = true := by
  obtain ⟨i0, hi0, hiu⟩ := oneD_cover ncol nx hx x.toNat (by omega) (by omega)
  obtain ⟨j0, hj0, hju⟩ := oneD_cover nrow ny hy y.toNat (by omega) (by omega)
  obtain ⟨hi0a, hi0b, hi0c⟩ := hi0
  obtain ⟨hj0a, hj0b, hj0c⟩ := hj0
  refine ⟨(i0, j0), ⟨hi0a, hj0a, ?_⟩, ?_⟩
  · dsimp only
    rw [containsB_secBounds]
    refine ⟨?_, ?_, ?_, ?_⟩ <;> omega
  · rintro ⟨i, j⟩ ⟨hi, hj, hcont⟩
    dsimp only at hi hj hcont
    rw [containsB_secBounds] at hcont
    obtain ⟨hc1, hc2, hc3, hc4⟩ := hcont
    have e1 : i = i0 := hiu i ⟨hi, by omega, by omega⟩
    have e2 : j = j0 := hju j ⟨hj, by omega, by omega⟩
    subst e1
    subst e2
    rfl

/-- Witness for C1 on a non-divisible case: a 10×7 image cut into a 4×2
grid (`dx = 2`, last column absorbs pixels 7..10), at pixel (10, 7). -/
theorem grid_partition_witness :
    0 < 10 ∧ 0 < 7 ∧ 0 < 4 ∧ 0 < 2 ∧
    (1 : Int) ≤ 10 ∧ (10 : Int) ≤ ((10 : Nat) : Int) ∧
    (1 : Int) ≤ 7 ∧ (7 : Int) ≤ ((7 : Nat) : Int) ∧
    (∃! ij : Nat × Nat, ij.1 < 4 ∧ ij.2 < 2 ∧
      (secBounds 10 7 4 2 ij.1 ij.2).containsB 10 7 = true) :=
  ⟨by norm_num, by norm_num, by norm_num, by norm_num,
   by norm_num, by norm_num, by norm_num, by norm_num,
   grid_partition 10 7 4 2 (by norm_num) (by norm_num) (by norm_num)
     (by norm_num) 10 7 (by norm_num) (by norm_num) (by norm_num)
     (by norm_num)⟩

/-! ## C5: Poisson means and photon positions in photon-shooting mode -/

/-- Range of the affine position map for the x coordinate: a uniform draw
in `[0, 1)` lands in `[xmin - 1/2, xmax + 1/2)`. -/
theorem photonX_bounds (u : ℚ) (b : Bounds) (hu0 : 0 ≤ u) (hu1 : u < 1)
    (hb : b.xmin ≤ b.xmax) :
    (b.xmin : ℚ) - 1/2 ≤ photonX u b ∧ photonX u b < (b.xmax : ℚ) + 1/2 := by
  have hbq : (b.xmin : ℚ) ≤ (b.xmax : ℚ) := by exact_mod_cast hb
  have hw : (0:ℚ) < (b.xmax : ℚ) - (b.xmin : ℚ) + 1 := by linarith
  constructor
  · have h := mul_nonneg hu0 (le_of_lt hw)
    unfold photonX
    linarith
  · have h := mul_lt_mul_of_pos_right hu1 hw
    rw [one_mul] at h
    unfold photonX
    linarith

/-- Range of the affine position map for the y coordinate. -/
theorem photonY_bounds (u : ℚ) (b : Bounds) (hu0 : 0 ≤ u) (hu1 : u < 1)
    (hb : b.ymin ≤ b.ymax) :
    (b.ymin : ℚ) - 1/2 ≤ photonY u b ∧ photonY u b < (b.ymax : ℚ) + 1/2 := by
  have hbq : (b.ymin : ℚ) ≤ (b.ymax : ℚ) := by exact_mod_cast hb
  have hw : (0:ℚ) < (b.ymax : ℚ) - (b.ymin : ℚ) + 1 := by linarith
  constructor
  · have h := mul_nonneg hu0 (le_of_lt hw)
    unfold photonY
    linarith
  · have h := mul_lt_mul_of_pos_right hu1 hw
    rw [one_mul] at h
    unfold photonY
    linarith

/-- Unfolding equation for `genList` at a successor length. -/
theorem genList_succ (m : Nat) (f : Nat → ℚ × Nat) (rng : Nat) :
    genList (m + 1) f rng =
      ((f rng).1 :: (genList m f (f rng).2).1, (genList m f (f rng).2).2) := rfl

/-- Every value produced by `genList` satisfies any property that every
single draw of the sampler satisfies. -/
theorem genList_mem (f : Nat → ℚ × Nat) (P : ℚ → Prop)
    (hf : ∀ r, P (f r).1) :
    ∀ (n rng : Nat) (u : ℚ), u ∈ (genList n f rng).1 → P u := by
  intro n
  induction n with
  | zero =>
      intro rng u hu
      simp [genList] at hu
  | succ m ih =>
      intro rng u hu
      rw [genList_succ] at hu
      rcases List.mem_cons.mp hu with h | h
      · exact h ▸ hf rng
      · exact ih _ u h

/-- Every element of a `zipWith` comes from elements of the two lists. -/
theorem mem_zipWith_exists {α β γ : Type} (g : α → β → γ) :
    ∀ (l1 : List α) (l2 : List β) (c : γ), c ∈ List.zipWith g l1 l2 →
      ∃ a, a ∈ l1 ∧ ∃ b, b ∈ l2 ∧ c = g a b := by
  intro l1
  induction l1 with
  | nil =>
      intro l2 c hc
      simp at hc
  | cons a as ih =>
      intro l2 c hc
      cases l2 with
      | nil => simp at hc
      | cons b bs =>
          rw [List.zipWith_cons_cons] at hc
          rcases List.mem_cons.mp hc with h | h
          · exact ⟨a, List.mem_cons_self a as, b, List.mem_cons_self b bs, h⟩
          · obtain ⟨a', ha', b', hb', heq⟩ := ih bs c h
            exact ⟨a', List.mem_cons_of_mem a ha', b',
              List.mem_cons_of_mem b hb', heq⟩

/-- Every photon generated by `genPhotons` lies in the continuous extent of
the bounds under the half-pixel offset convention, provided every uniform
draw lies in `[0, 1)`. -/
theorem genPhotons_pos (env : Env) (n : Nat) (b : Bounds) (rng : Nat)
    (hU : ∀ r, 0 ≤ (env.uniform r).1 ∧ (env.uniform r).1 < 1)
    (hbx : b.xmin ≤ b.xmax) (hby : b.ymin ≤ b.ymax) :
    ∀ ph ∈ (genPhotons env n b rng).1,
      ((b.xmin : ℚ) - 1/2 ≤ ph.x ∧ ph.x < (b.xmax : ℚ) + 1/2) ∧
      ((b.ymin : ℚ) - 1/2 ≤ ph.y ∧ ph.y < (b.ymax : ℚ) + 1/2) := by
  intro ph hph
  obtain ⟨xy, hxy, w, hw, heq⟩ := mem_zipWith_exists _ _ _ ph hph
  obtain ⟨hx, hy⟩ := List.of_mem_zip hxy
  have hux := genList_mem env.uniform (fun u => 0 ≤ u ∧ u < 1) hU _ _ _ hx
  have huy := genList_mem env.uniform (fun u => 0 ≤ u ∧ u < 1) hU _ _ _ hy
  subst heq
  exact ⟨photonX_bounds xy.1 b hux.1 hux.2 hbx,
    photonY_bounds xy.2 b huy.1 huy.2 hby⟩

/-- The photon-mode iteration appends exactly one Poisson-call record, for
the mean it passed to the Poisson deviate. -/
theorem photonIter_log (env : Env) (cpi : ℚ) (b : Bounds) (i j : Nat)
    (st : LoopState) :
    (photonIter env cpi b i j st).2.2 =
      st.2.2 ++ [⟨cpi * (b.area : ℚ), i, j⟩] := rfl

/-- The mean-mode iteration requests no Poisson draw from the deviate. -/
theorem meanIter_log (env : Env) (base : Image) (b : Bounds)
    (st : LoopState) :
    (meanIter env base b st).2.2 = st.2.2 := rfl

/-- A property of log entries preserved by a loop body is preserved by any
number of its iterations. -/
theorem iterate_log_inv (f : LoopState → LoopState) (Q : PoissonCall → Prop)
    (hf : ∀ st, (∀ e ∈ st.2.2, Q e) → ∀ e ∈ (f st).2.2, Q e) :
    ∀ (n : Nat) (st : LoopState),
      (∀ e ∈ st.2.2, Q e) → ∀ e ∈ (f^[n] st).2.2, Q e := by
  intro n
  induction n with
  | zero =>
      intro st h
      simpa using h
  | succ m ih =>
      intro st h
      rw [Function.iterate_succ_apply]
      exact ih (f st) (hf st h)

/-- The mode-selected iteration body of a section preserves goodness of the
Poisson-call log. -/
theorem body_log_inv (env : Env) (p : FlatParams) (cpi : ℚ) (base : Image)
    (ncol nrow i j : Nat) (hi : i < p.nx) (hj : j < p.ny) :
    ∀ st : LoopState, (∀ e ∈ st.2.2, goodCall p cpi ncol nrow e) →
      ∀ e ∈ ((if p.hasSed then
          photonIter env cpi
            ((secBounds ncol nrow p.nx p.ny i j).withBorder
              (p.buffer_size : Int)) i j
        else
          meanIter env base
            ((secBounds ncol nrow p.nx p.ny i j).withBorder
              (p.buffer_size : Int))) st).2.2,
        goodCall p cpi ncol nrow e := by
  intro st hst e he
  by_cases hsed : p.hasSed = true
  · rw [if_pos hsed, photonIter_log, List.mem_append] at he
    rcases he with h | h
    · exact hst e h
    · rw [List.mem_singleton] at h
      subst h
      exact ⟨hi, hj, rfl⟩
  · rw [if_neg hsed, meanIter_log] at he
    exact hst e he

/-- All iterations of one section preserve goodness of the log. -/
theorem runSectionIters_log (env : Env) (p : FlatParams) (cpi : ℚ)
    (base : Image) (nit ncol nrow i j rng : Nat) (log : List PoissonCall)
    (hi : i < p.nx) (hj : j < p.ny)
    (hlog : ∀ e ∈ log, goodCall p cpi ncol nrow e) :
    ∀ e ∈ (runSectionIters env p cpi base nit ncol nrow i j rng log).2.2,
      goodCall p cpi ncol nrow e := by
  intro e he
  exact iterate_log_inv _ _ (body_log_inv env p cpi base ncol nrow i j hi hj)
    nit _ hlog e he

/-- Merging a section into the output image does not touch the log. -/
theorem sectionStep_log (env : Env) (p : FlatParams) (cpi : ℚ)
    (base : Image) (nit ncol nrow i j : Nat) (st : LoopState) :
    (sectionStep env p cpi base nit ncol nrow i j st).2.2 =
    (runSectionIters env p cpi base nit ncol nrow i j st.2.1 st.2.2).2.2 :=
  rfl

/-- A property of log entries preserved by every indexed step of a fold is
preserved by the fold. -/
theorem foldl_log_inv (Q : PoissonCall → Prop)
    (g : LoopState → Nat → LoopState) :
    ∀ l : List Nat,
      (∀ st k, k ∈ l → (∀ e ∈ st.2.2, Q e) → ∀ e ∈ (g st k).2.2, Q e) →
      ∀ st : LoopState, (∀ e ∈ st.2.2, Q e) →
        ∀ e ∈ (List.foldl g st l).2.2, Q e := by
  intro l
  induction l with
  | nil =>
      intro _ st h
      simpa using h
  | cons a as ih =>
      intro hg st h
      rw [List.foldl_cons]
      exact ih (fun st k hk hst e he => hg st k (List.mem_cons_of_mem a hk) hst e he)
        (g st a) (fun e he => hg st a (List.mem_cons_self a as) h e he)

/-- C5: in photon-shooting mode, every Poisson draw requested during a
successful run of `addNoise` has mean exactly `counts_per_iter` times the
area of the current section's buffer-expanded bounds (no arithmetic
rounding), and every photon position generated from uniform draws in
`[0, 1)` lies in the continuous extent of the expanded bounds under the
half-pixel offset convention. -/
theorem photon_poisson_means (env : Env) (p : FlatParams)
    (bandpass : Option Unit) (rng0 : Nat) (img : Image) (res : LoopState)
    (hsed : p.hasSed = true)
    (hrun : addNoise env p bandpass rng0 img = Except.ok res)
    (hU : ∀ r : Nat, 0 ≤ (env.uniform r).1 ∧ (env.uniform r).1 < 1)
    (n : Nat) (b : Bounds) (rng : Nat)
    (hbx : b.xmin ≤ b.xmax) (hby : b.ymin ≤ b.ymax) :
    (∀ e ∈ res.2.2,
      goodCall p
        (p.counts_per_pixel /
          ((niterN p.counts_per_pixel p.max_counts_per_iter : Nat) : ℚ))
        ((img.bounds.xmax - img.bounds.xmin + 1).toNat)
        ((img.bounds.ymax - img.bounds.ymin + 1).toNat) e) ∧
    (∀ ph ∈ (genPhotons env n b rng).1,
      ((b.xmin : ℚ) - 1/2 ≤ ph.x ∧ ph.x < (b.xmax : ℚ) + 1/2) ∧
      ((b.ymin : ℚ) - 1/2 ≤ ph.y ∧ ph.y < (b.ymax : ℚ) + 1/2)) := by
  constructor
  · obtain ⟨cpp, xsz, ysz, bs, mcpi, hs, nx, ny⟩ := p
    dsimp only at hsed hrun ⊢
    subst hsed
    cases bandpass with
    | none =>
        exact absurd hrun (by simp [addNoise])
    | some u =>
        intro e he
        have hres :
            Except.ok ((List.range nx).foldl (fun st i =>
              (List.range ny).foldl (fun st1 j =>
                sectionStep env ⟨cpp, xsz, ysz, bs, mcpi, true, nx, ny⟩
                  (cpp / ((niterN cpp mcpi : Nat) : ℚ))
                  { bounds := img.bounds.withBorder (bs : Int)
                    wcs := img.wcs, pix := fun _ _ => 0 }
                  (niterN cpp mcpi)
                  ((img.bounds.xmax - img.bounds.xmin + 1).toNat)
                  ((img.bounds.ymax - img.bounds.ymin + 1).toNat) i j st1)
                st) ((img, rng0, []) : LoopState)) = Except.ok res := hrun
        have h2 := Except.ok.inj hres
        rw [← h2] at he
        refine foldl_log_inv _ _ (List.range nx) ?_ (img, rng0, []) ?_ e he
        · intro st i hi hst
          refine foldl_log_inv _ _ (List.range ny) ?_ st hst
          intro st1 j hj hst1 e1 he1
          rw [sectionStep_log] at he1
          exact runSectionIters_log env ⟨cpp, xsz, ysz, bs, mcpi, true, nx, ny⟩
            _ _ _ _ _ i j _ _ (List.mem_range.mp hi) (List.mem_range.mp hj)
            hst1 e1 he1
        · intro e2 he2
          simp at he2
  · exact genPhotons_pos env n b rng hU hbx hby

/-- Witness for C5: a concrete successful photon-mode run of a 1×1 flat
with the trivial environment, and concrete photon generation over the
bounds `bW`. -/
theorem photon_poisson_means_witness :
    pPhoton.hasSed = true ∧
    (∀ r : Nat, 0 ≤ (trivEnv.uniform r).1 ∧ (trivEnv.uniform r).1 < 1) ∧
    bW.xmin ≤ bW.xmax ∧ bW.ymin ≤ bW.ymax ∧
    ∃ res : LoopState,
      addNoise trivEnv pPhoton (some ()) 0 imgOne = Except.ok res ∧
      ((∀ e ∈ res.2.2,
        goodCall pPhoton
          (pPhoton.counts_per_pixel /
            ((niterN pPhoton.counts_per_pixel pPhoton.max_counts_per_iter : Nat) : ℚ))
          ((imgOne.bounds.xmax - imgOne.bounds.xmin + 1).toNat)
          ((imgOne.bounds.ymax - imgOne.bounds.ymin + 1).toNat) e) ∧
      (∀ ph ∈ (genPhotons trivEnv 2 bW 5).1,
        ((bW.xmin : ℚ) - 1/2 ≤ ph.x ∧ ph.x < (bW.xmax : ℚ) + 1/2) ∧
        ((bW.ymin : ℚ) - 1/2 ≤ ph.y ∧ ph.y < (bW.ymax : ℚ) + 1/2))) := by
  refine ⟨rfl, fun r => ⟨le_refl 0, by norm_num [trivEnv]⟩, by norm_num [bW],
    by norm_num [bW], _, rfl, ?_⟩
  exact photon_poisson_means trivEnv pPhoton (some ()) 0 imgOne _ rfl rfl
    (fun r => ⟨le_refl 0, by norm_num [trivEnv]⟩) 2 bW 5 (by norm_num [bW])
    (by norm_num [bW])

end ImSim
